import Mathlib

/-!
# Verification of the field-boundary drawing/editing core

Shallow embedding of `src/app/components/map/MapComponent.tsx` (the polygon
drawing and editing logic of the repository).  JavaScript numbers are modelled
by `JsNum`: a rational value, `NaN`, or a signed infinity — this is needed
because `handleDistanceChange` divides by the current edge distance with no
zero guard, and the IEEE-754 behaviour of that division decides one of the
claims.  (Negative zero is not modelled; the only division that matters is by
the value `0` returned by the distance function for a degenerate edge, which
is `+0` in JavaScript, so `JsNum.div` treats a zero divisor as `+0`.)

The external Google Maps services (the map surface, geodesic distance
`computeDistanceBetween`, `computeArea`, `Math.atan2`) are collaborators, not
code of this repository; they are passed to the embedded operations as
function parameters (`dist`, `carea`, `a2`), so every theorem quantifies over
their behaviour except where a claim pins a value (for instance a degenerate
edge has distance 0).
-/

/-- Model of a JavaScript (IEEE-754 double) number: a rational, NaN, or a
signed infinity. -/
inductive JsNum where
  | num (q : ℚ)
  | nan
  | posInf
  | negInf
deriving DecidableEq, Repr

namespace JsNum

/-- JavaScript addition. `∞ + (-∞) = NaN`; NaN is absorbing. -/
def add : JsNum → JsNum → JsNum
  | nan, _ => nan
  | _, nan => nan
  | num a, num b => num (a + b)
  | num _, posInf => posInf
  | num _, negInf => negInf
  | posInf, num _ => posInf
  | negInf, num _ => negInf
  | posInf, posInf => posInf
  | negInf, negInf => negInf
  | posInf, negInf => nan
  | negInf, posInf => nan

/-- JavaScript subtraction. `∞ - ∞ = NaN`; NaN is absorbing. -/
def sub : JsNum → JsNum → JsNum
  | nan, _ => nan
  | _, nan => nan
  | num a, num b => num (a - b)
  | num _, posInf => negInf
  | num _, negInf => posInf
  | posInf, num _ => posInf
  | negInf, num _ => negInf
  | posInf, posInf => nan
  | negInf, negInf => nan
  | posInf, negInf => posInf
  | negInf, posInf => negInf

/-- JavaScript multiplication. `0 * ±∞ = NaN`; NaN is absorbing. -/
def mul : JsNum → JsNum → JsNum
  | nan, _ => nan
  | _, nan => nan
  | num a, num b => num (a * b)
  | num a, posInf => if a = 0 then nan else if 0 < a then posInf else negInf
  | posInf, num a => if a = 0 then nan else if 0 < a then posInf else negInf
  | num a, negInf => if a = 0 then nan else if 0 < a then negInf else posInf
  | negInf, num a => if a = 0 then nan else if 0 < a then negInf else posInf
  | posInf, posInf => posInf
  | posInf, negInf => negInf
  | negInf, posInf => negInf
  | negInf, negInf => posInf

/-- JavaScript division.  A zero divisor is treated as `+0`, so
`a / 0 = +∞` for `a > 0`, `-∞` for `a < 0`, and `0 / 0 = NaN`. -/
def div : JsNum → JsNum → JsNum
  | nan, _ => nan
  | _, nan => nan
  | num a, num b =>
      if b = 0 then (if a = 0 then nan else if 0 < a then posInf else negInf)
      else num (a / b)
  | num _, posInf => num 0
  | num _, negInf => num 0
  | posInf, num b => if 0 ≤ b then posInf else negInf
  | negInf, num b => if 0 ≤ b then negInf else posInf
  | posInf, _ => nan
  | negInf, _ => nan

/-- JavaScript `<` comparison: any comparison involving NaN is false. -/
def lt : JsNum → JsNum → Bool
  | nan, _ => false
  | _, nan => false
  | num a, num b => a < b
  | num _, posInf => true
  | num _, negInf => false
  | posInf, _ => false
  | negInf, negInf => false
  | negInf, _ => true

end JsNum

/-- A geographic point (`google.maps.LatLng`): latitude and longitude, each a
JavaScript number. -/
structure LatLng where
  lat : JsNum
  lng : JsNum
deriving DecidableEq, Repr

instance : Inhabited LatLng := ⟨⟨JsNum.num 0, JsNum.num 0⟩⟩

/-- Decimal digit character. -/
def digitChar (n : ℕ) : Char := Char.ofNat (48 + n)

/-- Model of JavaScript `Number.prototype.toFixed(2)` for the nonnegative
rationals this code feeds it (a distance divided by 1000): round half-up to
two decimals, printing the integer part and exactly two fraction digits. -/
def toFixed2 (q : ℚ) : String :=
  let n : ℤ := ⌊q * 100 + 1 / 2⌋
  let whole := n / 100
  let frac := (n % 100).toNat
  toString whole ++ "." ++ String.mk [digitChar (frac / 10), digitChar (frac % 10)]

/-- The distance-label text from `updateEdgeMarkers`
(`MapComponent.tsx:452-454`):
`distance < 1000 ? round(distance) + "m" : (distance/1000).toFixed(2) + "km"`.
`Math.round` rounds half toward `+∞`, which on the nonnegative inputs that
occur is Mathlib's `round`.  The non-finite branches record how JavaScript
would stringify them (`NaN < 1000` is false, so NaN takes the km branch). -/
def distanceText : JsNum → String
  | .num q => if q < 1000 then toString (round q) ++ "m" else toFixed2 (q / 1000) ++ "km"
  | .nan => "NaNkm"
  | .posInf => "Infinitykm"
  | .negInf => "-Infinitym"

/-- An entry of the `edgeMarkers` array.  `updateEdgeMarkers` pushes, per
edge, first a `DistanceOverlay` (recording the constructor arguments:
position, text, angle) and then the draggable midpoint handle marker. -/
inductive EdgeEntry where
  | overlay (position : LatLng) (text : String) (angle : JsNum)
  | handle (position : LatLng)
deriving DecidableEq, Repr

/-- Whether an `edgeMarkers` entry is the midpoint handle marker (there is
exactly one per edge, so counting handles counts edges). -/
def EdgeEntry.isHandle : EdgeEntry → Bool
  | .overlay _ _ _ => false
  | .handle _ => true

/-- Whether an entry's overlay angle is `0` (handles carry no angle). -/
def EdgeEntry.angleIsZero : EdgeEntry → Bool
  | .overlay _ _ a => a = JsNum.num 0
  | .handle _ => true

/-- A vertex marker: the drawing code keys markers by position in the
`vertexMarkers` array, the marker itself carrying its map position. -/
structure Marker where
  position : LatLng
deriving DecidableEq, Repr

/-- The mutable closure state of one drawing session
(`setupAutoClosePolygon`, `MapComponent.tsx:410-419`): the vertex ring, the
vertex markers, the edge-marker entries, the temporary polyline's path (if
the polyline exists), and whether the two map listeners are attached. -/
structure DrawingState where
  vertices : List LatLng
  vertexMarkers : List Marker
  edgeMarkers : List EdgeEntry
  tempPolyline : Option (List LatLng)
  clickListener : Bool
  dblClickListener : Bool
deriving DecidableEq, Repr

/-- The polyline path computed before every `setPath`
(`MapComponent.tsx:781-786` and the like): the vertices, with the first
vertex appended when there are at least 3. -/
def closePath (vs : List LatLng) : List LatLng :=
  if 3 ≤ vs.length then vs ++ vs.take 1 else vs

/-- JavaScript `array.splice(i, 0, a)`: insert `a` at index `i`, clamping to
the end of the array when `i` exceeds the length. -/
def spliceInsert (l : List α) (i : ℕ) (a : α) : List α :=
  l.take i ++ a :: l.drop i

/-- The two entries `updateEdgeMarkers` pushes for edge `i`
(`MapComponent.tsx:441-501,687`): the `DistanceOverlay` at the planar midpoint
with the formatted distance text, then the draggable midpoint handle.  The
edge runs from `vertices[i]` to `vertices[(i+1) % n]`.  The rotation angle is
computed with `Math.atan2` (`a2`) and then overwritten with `0`
(`MapComponent.tsx:457-463`). -/
def edgePairAt (dist : LatLng → LatLng → JsNum) (a2 : JsNum → JsNum → JsNum)
    (vs : List LatLng) (i : ℕ) : List EdgeEntry :=
  let p1 := vs.getD i default
  let p2 := vs.getD ((i + 1) % vs.length) default
  let midLat := JsNum.div (JsNum.add p1.lat p2.lat) (JsNum.num 2)
  let midLng := JsNum.div (JsNum.add p1.lng p2.lng) (JsNum.num 2)
  let midpoint : LatLng := ⟨midLat, midLng⟩
  let text := distanceText (dist p1 p2)
  let angle := a2 (JsNum.sub p2.lng p1.lng) (JsNum.sub p2.lat p1.lat)
  let angle := JsNum.num 0
  [EdgeEntry.overlay midpoint text angle, EdgeEntry.handle midpoint]

/-- Model of `updateEdgeMarkers` (`MapComponent.tsx:428-690`): discard all edge-marker
entries, then, when there are at least 2 vertices, push one overlay and one
handle for every one of the `n` cyclic edges (the loop wraps with
`(i + 1) % n` even while the ring is still open). -/
def updateEdgeMarkers (dist : LatLng → LatLng → JsNum) (a2 : JsNum → JsNum → JsNum)
    (s : DrawingState) : DrawingState :=
  if 2 ≤ s.vertices.length then
    { s with edgeMarkers := (List.range s.vertices.length).flatMap (edgePairAt dist a2 s.vertices) }
  else
    { s with edgeMarkers := [] }

/-- The transform style of the label div built in `DistanceOverlay.onAdd`
(`MapComponent.tsx:108`): a pure translation, no `rotate(...)` term. -/
def distanceOverlayDivTransform : String := "translate(-50%, -150%)"

/-- State reset by `startDrawing` (`MapComponent.tsx:692-704`): a fresh empty
polyline, empty vertex/marker/edge arrays, and the two map listeners
attached. -/
def startDrawingState : DrawingState :=
  { vertices := []
    vertexMarkers := []
    edgeMarkers := []
    tempPolyline := some []
    clickListener := true
    dblClickListener := true }

/-- The map `click` handler while drawing (`MapComponent.tsx:706-790`): if
the event carries a point and the polyline exists, push the point onto
`vertices`, push a new circle marker onto `vertexMarkers`, set the polyline
path (closing it visually once there are 3 vertices), and rebuild the edge
markers.  The handler only exists while the click listener is attached. -/
def mapClick (dist : LatLng → LatLng → JsNum) (a2 : JsNum → JsNum → JsNum)
    (s : DrawingState) (latLng? : Option LatLng) : DrawingState :=
  if s.clickListener = false then s else
  match latLng?, s.tempPolyline with
  | some p, some _ =>
      let vs := s.vertices ++ [p]
      updateEdgeMarkers dist a2
        { s with
          vertices := vs
          vertexMarkers := s.vertexMarkers ++ [⟨p⟩]
          tempPolyline := some (closePath vs) }
  | _, _ => s

/-- The per-marker properties the midpoint-handle `dragstart` listener stores
on the handle (`MapComponent.tsx:545-553`): the handle's position, a copy of
the vertices at drag start (never read back by any listener), and the index
of the provisional in-flight vertex. -/
structure MidDragProps where
  originalPosition : LatLng
  originalVertices : List LatLng
  tempVertexIndex : ℕ
deriving DecidableEq, Repr

/-- The midpoint handle's `dragstart` listener for edge `i`
(`MapComponent.tsx:521-554`), given the handle's current position:
provisionally splice that position into `vertices` at `i + 1` and record the
drag bookkeeping on the marker.  No vertex marker is created yet. -/
def midpointDragStart (i : ℕ) (pos : LatLng) (s : DrawingState) :
    DrawingState × MidDragProps :=
  ({ s with vertices := spliceInsert s.vertices (i + 1) pos },
   { originalPosition := pos
     originalVertices := s.vertices
     tempVertexIndex := i + 1 })

/-- The midpoint handle's `drag` listener (`MapComponent.tsx:556-573`): if
the event carries a point and the polyline exists, move the in-flight vertex
there and refresh the polyline path. -/
def midpointDrag (latLng? : Option LatLng) (md : MidDragProps) (s : DrawingState) :
    DrawingState :=
  match latLng?, s.tempPolyline with
  | some p, some _ =>
      { s with
        vertices := s.vertices.set md.tempVertexIndex p
        tempPolyline := some (closePath (s.vertices.set md.tempVertexIndex p)) }
  | _, _ => s

/-- The midpoint handle's `dragend` listener (`MapComponent.tsx:575-685`).
When the event carries no point the listener returns at once — the
provisional vertex spliced in at `dragstart` stays in `vertices` and the
stored `originalVertices` copy is never restored.  Otherwise the in-flight
vertex gets its final position, a permanent vertex marker is spliced into
`vertexMarkers` at the same index, the polyline is refreshed, the edge-marker
entries are discarded, and `updateEdgeMarkers` rebuilds them. -/
def midpointDragEnd (dist : LatLng → LatLng → JsNum) (a2 : JsNum → JsNum → JsNum)
    (latLng? : Option LatLng) (md : MidDragProps) (s : DrawingState) : DrawingState :=
  match latLng? with
  | none => s
  | some p =>
      let vs := s.vertices.set md.tempVertexIndex p
      updateEdgeMarkers dist a2
        { s with
          vertices := vs
          vertexMarkers := spliceInsert s.vertexMarkers md.tempVertexIndex ⟨p⟩
          tempPolyline := s.tempPolyline.map fun _ => closePath vs
          edgeMarkers := [] }

/-- A full midpoint-handle drag on edge `i` carried to completion: the
`dragstart`, any number of `drag` steps, and a `dragend` that carries a final
point. -/
def completedMidDrag (dist : LatLng → LatLng → JsNum) (a2 : JsNum → JsNum → JsNum)
    (i : ℕ) (pos : LatLng) (moves : List (Option LatLng)) (p : LatLng)
    (s : DrawingState) : DrawingState :=
  let r := midpointDragStart i pos s
  let s1 := moves.foldl (fun st m => midpointDrag m r.2 st) r.1
  midpointDragEnd dist a2 (some p) r.2 s1

/-- The distance-change handler created per edge inside `updateEdgeMarkers`
(`MapComponent.tsx:466-491`).  `p1`, `p2` are the edge endpoints captured by
the closure, `i` the edge index, `newDistance` the submitted length in
meters.  The ratio `newDistance / dist p1 p2` is formed with NO guard against
a zero current distance; the far vertex slot `(i+1) % vertices.length` and
its marker receive `p1 + (p2 - p1) * ratio` componentwise in JavaScript
arithmetic, the polyline is refreshed, and the edge markers are rebuilt. -/
def handleDistanceChange (dist : LatLng → LatLng → JsNum) (a2 : JsNum → JsNum → JsNum)
    (p1 p2 : LatLng) (i : ℕ) (newDistance : ℚ) (s : DrawingState) : DrawingState :=
  let currentDistance := dist p1 p2
  let ratio := JsNum.div (JsNum.num newDistance) currentDistance
  let lat := JsNum.add p1.lat (JsNum.mul (JsNum.sub p2.lat p1.lat) ratio)
  let lng := JsNum.add p1.lng (JsNum.mul (JsNum.sub p2.lng p1.lng) ratio)
  let newPosition : LatLng := ⟨lat, lng⟩
  let j := (i + 1) % s.vertices.length
  let vs := s.vertices.set j newPosition
  updateEdgeMarkers dist a2
    { s with
      vertices := vs
      vertexMarkers := s.vertexMarkers.set j ⟨newPosition⟩
      tempPolyline := s.tempPolyline.map fun _ => closePath vs }

/-- The conversion applied by the `DistanceOverlay` input's `change` listener
(`MapComponent.tsx:137-145`) before invoking the distance-change handler: a
value typed in a km-unit label is multiplied by 1000, a meter value passed
through. -/
def inputValueToMeters (isKm : Bool) (value : ℚ) : ℚ :=
  if isKm then value * 1000 else value

/-- A completed (closed) polygon as `onPolygonComplete` manages it
(`MapComponent.tsx:306-407`): its path and the marker arrays it stores on the
polygon object. -/
structure PolygonState where
  path : List LatLng
  vertexMarkers : List Marker
  edgeMarkers : List EdgeEntry
deriving DecidableEq, Repr

/-- Model of `addEdgeMarkers` for a completed polygon (`MapComponent.tsx:318-338`):
removes the previous edge markers and walks the path, but the loop body that
would create replacements is an empty stub (only a comment, `tsx:333-334`),
so the stored `edgeMarkers` array ends up empty. -/
def addEdgeMarkers (ps : PolygonState) : PolygonState :=
  { ps with edgeMarkers := [] }

/-- Model of `onPolygonComplete` (`MapComponent.tsx:306-407`): store the polygon,
create one draggable vertex marker per path vertex, and run
`addEdgeMarkers`. -/
def onPolygonComplete (ring : List LatLng) : PolygonState :=
  addEdgeMarkers
    { path := ring
      vertexMarkers := ring.map fun p => ⟨p⟩
      edgeMarkers := [] }

/-- Model of `path.insertAt(index, p)` on a completed polygon together with the
`insert_at` listener registered in `onPolygonComplete`
(`MapComponent.tsx:372-401`): the point is spliced into the path; the
listener reads the vertex back from the path at that index and, if present,
splices a new vertex marker into `vertexMarkers` at the same index. -/
def pathInsertAt (ps : PolygonState) (index : ℕ) (p : LatLng) : PolygonState :=
  let path := spliceInsert ps.path index p
  match path[index]? with
  | none => { ps with path := path }
  | some v => { ps with path := path, vertexMarkers := spliceInsert ps.vertexMarkers index ⟨v⟩ }

/-- The `onClick` handler of a rendered field polygon
(`MapComponent.tsx:954-963`): when the click hits an edge (`e.edge`
defined), no vertex (`e.vertex` undefined) and carries a point, insert the
point into the path at `edge + 1`; otherwise do nothing. -/
def polygonClick (ps : PolygonState) (edge? vertex? : Option ℕ) (latLng? : Option LatLng) :
    PolygonState :=
  match edge?, vertex?, latLng? with
  | some e, none, some p => pathInsertAt ps (e + 1) p
  | _, _, _ => ps

/-- The component state the double-click close path touches: the drawing
session, the registered field polygons, and the drawing-mode flag. -/
structure AppState where
  session : DrawingState
  fieldPolygons : List PolygonState
  isDrawingMode : Bool
deriving DecidableEq, Repr

/-- The map `dblclick` handler (`MapComponent.tsx:793-832`).  With at least 3
vertices: build the final polygon from the current vertices, remove the
temporary polyline and all temporary vertex/edge markers, detach both map
listeners, and hand the polygon to `onPolygonComplete`, which registers it in
`fieldPolygons` and clears the drawing-mode flag.  With fewer than 3 vertices
the handler body is skipped entirely. -/
def mapDblClick (app : AppState) : AppState :=
  if app.session.dblClickListener = false then app else
  if 3 ≤ app.session.vertices.length then
    { app with
      session :=
        { app.session with
          tempPolyline := none
          vertexMarkers := []
          edgeMarkers := []
          clickListener := false
          dblClickListener := false }
      fieldPolygons := app.fieldPolygons ++ [onPolygonComplete app.session.vertices]
      isDrawingMode := false }
  else app

/-- The state observed by the area-reporting `useEffect`
(`MapComponent.tsx:866-877`): the registered rings and the values passed so
far to the host's `onAreaUpdate` callback. -/
structure RegistryState where
  fieldPolygons : List (List LatLng)
  notified : List ℚ
deriving DecidableEq, Repr

/-- The total area computation of the `useEffect`
(`MapComponent.tsx:870-873`): fold over the registered polygons, adding each
`computeArea(path) / 10000` (square meters to hectares). -/
def totalAreaHectares (carea : List LatLng → ℚ) (polys : List (List LatLng)) : ℚ :=
  polys.foldl (fun sum poly => sum + carea poly / 10000) 0

/-- The body of the area `useEffect` (`MapComponent.tsx:867-877`), run
whenever its dependency — the `fieldPolygons` array identity — changes: when
at least one polygon is registered, call the host with the current total. -/
def areaEffect (carea : List LatLng → ℚ) (st : RegistryState) : RegistryState :=
  if 0 < st.fieldPolygons.length then
    { st with notified := st.notified ++ [totalAreaHectares carea st.fieldPolygons] }
  else st

/-- Events that change registered-shape geometry. -/
inductive HostEvent where
  | register (ring : List LatLng)
  | mutateVertex (shapeIdx vertexIdx : ℕ) (p : LatLng)
deriving DecidableEq, Repr

/-- How the component reacts to each event.  Registration goes through
`setFieldPolygons` (`MapComponent.tsx:308`), producing a new array, so the
area `useEffect` re-runs.  A vertex mutation of a registered ring
(`path.setAt` in a marker drag listener, `tsx:361`, or `path.insertAt` on an
edge click, `tsx:961`) mutates the polygon's path in place: the
`fieldPolygons` dependency is unchanged and the effect does NOT re-run. -/
def applyHostEvent (carea : List LatLng → ℚ) (st : RegistryState) :
    HostEvent → RegistryState
  | .register ring =>
      areaEffect carea { st with fieldPolygons := st.fieldPolygons ++ [ring] }
  | .mutateVertex si vi p =>
      { st with
        fieldPolygons := st.fieldPolygons.set si ((st.fieldPolygons.getD si []).set vi p) }

/-- The midpoint the code anchors each edge's handle and label to: the
side-by-side arithmetic mean of the endpoints' latitudes and longitudes in
JavaScript arithmetic (`(p1.lat + p2.lat) / 2`, `(p1.lng + p2.lng) / 2`,
`MapComponent.tsx:445-448`) — a planar construction with no spherical
correction. -/
def planarMidpoint (p1 p2 : LatLng) : LatLng :=
  ⟨JsNum.div (JsNum.add p1.lat p2.lat) (JsNum.num 2),
   JsNum.div (JsNum.add p1.lng p2.lng) (JsNum.num 2)⟩

/-- First endpoint of edge `i`: `vertices[i]`. -/
def edgeP1 (vs : List LatLng) (i : ℕ) : LatLng := vs.getD i default

/-- Second endpoint of edge `i`: `vertices[(i + 1) % vertices.length]`. -/
def edgeP2 (vs : List LatLng) (i : ℕ) : LatLng := vs.getD ((i + 1) % vs.length) default

lemma edgePairAt_eq (dist : LatLng → LatLng → JsNum) (a2 : JsNum → JsNum → JsNum)
    (vs : List LatLng) (i : ℕ) :
    edgePairAt dist a2 vs i =
      [EdgeEntry.overlay (planarMidpoint (edgeP1 vs i) (edgeP2 vs i))
         (distanceText (dist (edgeP1 vs i) (edgeP2 vs i))) (JsNum.num 0),
       EdgeEntry.handle (planarMidpoint (edgeP1 vs i) (edgeP2 vs i))] := rfl

lemma pair_flatMap_length {α : Type} (f g : ℕ → α) (n : ℕ) :
    ((List.range n).flatMap fun j => [f j, g j]).length = 2 * n := by
  induction n with
  | zero => rfl
  | succ m ih =>
      rw [List.range_succ, List.flatMap_append, List.length_append, ih]
      simp [Nat.mul_succ]

lemma pair_flatMap_getElem {α : Type} (f g : ℕ → α) (n i : ℕ) (h : i < n) :
    ((List.range n).flatMap fun j => [f j, g j])[2 * i]? = some (f i) ∧
    ((List.range n).flatMap fun j => [f j, g j])[2 * i + 1]? = some (g i) := by
  induction n with
  | zero => omega
  | succ m ih =>
      rw [List.range_succ, List.flatMap_append]
      have hlen : ((List.range m).flatMap fun j => [f j, g j]).length = 2 * m :=
        pair_flatMap_length f g m
      by_cases him : i < m
      · rw [List.getElem?_append_left (by omega), List.getElem?_append_left (by omega)]
        exact ih him
      · have hi : i = m := by omega
        subst hi
        rw [List.getElem?_append_right (by omega), List.getElem?_append_right (by omega)]
        rw [hlen]
        simp

lemma pair_flatMap_filter {α : Type} (p : α → Bool) (f g : ℕ → α)
    (hf : ∀ j, p (f j) = false) (hg : ∀ j, p (g j) = true) (n : ℕ) :
    (((List.range n).flatMap fun j => [f j, g j]).filter p).length = n := by
  induction n with
  | zero => rfl
  | succ m ih =>
      rw [List.range_succ, List.flatMap_append, List.filter_append, List.length_append, ih]
      simp [hf m, hg m]

lemma spliceInsert_length {α : Type} (l : List α) (i : ℕ) (a : α) :
    (spliceInsert l i a).length = l.length + 1 := by
  unfold spliceInsert
  simp only [List.length_append, List.length_cons, List.length_take, List.length_drop]
  omega

lemma spliceInsert_getElem_self {α : Type} (l : List α) (i : ℕ) (a : α) (h : i ≤ l.length) :
    (spliceInsert l i a)[i]? = some a := by
  unfold spliceInsert
  rw [List.getElem?_append_right (by simp [List.length_take])]
  simp [List.length_take, Nat.min_eq_left h]

lemma updateEdgeMarkers_vertices (dist : LatLng → LatLng → JsNum)
    (a2 : JsNum → JsNum → JsNum) (s : DrawingState) :
    (updateEdgeMarkers dist a2 s).vertices = s.vertices := by
  unfold updateEdgeMarkers; split <;> rfl

lemma updateEdgeMarkers_vertexMarkers (dist : LatLng → LatLng → JsNum)
    (a2 : JsNum → JsNum → JsNum) (s : DrawingState) :
    (updateEdgeMarkers dist a2 s).vertexMarkers = s.vertexMarkers := by
  unfold updateEdgeMarkers; split <;> rfl

lemma updateEdgeMarkers_tempPolyline (dist : LatLng → LatLng → JsNum)
    (a2 : JsNum → JsNum → JsNum) (s : DrawingState) :
    (updateEdgeMarkers dist a2 s).tempPolyline = s.tempPolyline := by
  unfold updateEdgeMarkers; split <;> rfl

lemma updateEdgeMarkers_listeners (dist : LatLng → LatLng → JsNum)
    (a2 : JsNum → JsNum → JsNum) (s : DrawingState) :
    (updateEdgeMarkers dist a2 s).clickListener = s.clickListener ∧
    (updateEdgeMarkers dist a2 s).dblClickListener = s.dblClickListener := by
  unfold updateEdgeMarkers; split <;> exact ⟨rfl, rfl⟩

lemma updateEdgeMarkers_edgeMarkers_of_le (dist : LatLng → LatLng → JsNum)
    (a2 : JsNum → JsNum → JsNum) (s : DrawingState) (h : 2 ≤ s.vertices.length) :
    (updateEdgeMarkers dist a2 s).edgeMarkers =
      (List.range s.vertices.length).flatMap (edgePairAt dist a2 s.vertices) := by
  unfold updateEdgeMarkers
  rw [if_pos h]

lemma updateEdgeMarkers_edgeMarkers_of_lt (dist : LatLng → LatLng → JsNum)
    (a2 : JsNum → JsNum → JsNum) (s : DrawingState) (h : s.vertices.length < 2) :
    (updateEdgeMarkers dist a2 s).edgeMarkers = [] := by
  unfold updateEdgeMarkers
  rw [if_neg (by omega)]

lemma updateEdgeMarkers_edgeMarkers_length (dist : LatLng → LatLng → JsNum)
    (a2 : JsNum → JsNum → JsNum) (s : DrawingState) :
    (updateEdgeMarkers dist a2 s).edgeMarkers.length =
      if 2 ≤ s.vertices.length then 2 * s.vertices.length else 0 := by
  by_cases h : 2 ≤ s.vertices.length
  · rw [if_pos h, updateEdgeMarkers_edgeMarkers_of_le dist a2 s h]
    have : edgePairAt dist a2 s.vertices = fun j =>
        [EdgeEntry.overlay (planarMidpoint (edgeP1 s.vertices j) (edgeP2 s.vertices j))
           (distanceText (dist (edgeP1 s.vertices j) (edgeP2 s.vertices j))) (JsNum.num 0),
         EdgeEntry.handle (planarMidpoint (edgeP1 s.vertices j) (edgeP2 s.vertices j))] :=
      funext fun j => edgePairAt_eq dist a2 s.vertices j
    rw [this, pair_flatMap_length]
  · rw [if_neg h, updateEdgeMarkers_edgeMarkers_of_lt dist a2 s (by omega)]
    rfl

/-- The marker-consistency invariant of a drawing session: as many vertex
markers as ring vertices, and — as the code actually maintains it — one
overlay plus one handle for each of the `n` cyclic edges whenever `n ≥ 2`,
whether or not the ring is closed. -/
def MarkersInv (s : DrawingState) : Prop :=
  s.vertexMarkers.length = s.vertices.length ∧
  s.edgeMarkers.length = if 2 ≤ s.vertices.length then 2 * s.vertices.length else 0

/-- The marker-consistency invariant of a registered (closed) polygon: as
many vertex markers as path vertices, and an empty edge-marker array (the
rebuild in `onPolygonComplete` is a stub that creates none). -/
def PolyInv (ps : PolygonState) : Prop :=
  ps.vertexMarkers.length = ps.path.length ∧ ps.edgeMarkers = []

lemma updateEdgeMarkers_inv (dist : LatLng → LatLng → JsNum)
    (a2 : JsNum → JsNum → JsNum) (s : DrawingState)
    (h : s.vertexMarkers.length = s.vertices.length) :
    MarkersInv (updateEdgeMarkers dist a2 s) := by
  refine ⟨?_, ?_⟩
  · rw [updateEdgeMarkers_vertexMarkers, updateEdgeMarkers_vertices]; exact h
  · rw [updateEdgeMarkers_edgeMarkers_length, updateEdgeMarkers_vertices]

lemma midpointDrag_preserves (latLng? : Option LatLng) (md : MidDragProps)
    (s : DrawingState) :
    (midpointDrag latLng? md s).vertices.length = s.vertices.length ∧
    (midpointDrag latLng? md s).vertexMarkers = s.vertexMarkers ∧
    (midpointDrag latLng? md s).edgeMarkers = s.edgeMarkers := by
  unfold midpointDrag
  split
  · exact ⟨by simp, rfl, rfl⟩
  · exact ⟨rfl, rfl, rfl⟩

lemma foldl_midpointDrag_preserves (md : MidDragProps) (moves : List (Option LatLng)) :
    ∀ s : DrawingState,
      (moves.foldl (fun st m => midpointDrag m md st) s).vertices.length =
          s.vertices.length ∧
      (moves.foldl (fun st m => midpointDrag m md st) s).vertexMarkers =
          s.vertexMarkers := by
  induction moves with
  | nil => intro s; exact ⟨rfl, rfl⟩
  | cons m ms ih =>
      intro s
      rw [List.foldl_cons]
      obtain ⟨h1, h2, _⟩ := midpointDrag_preserves m md s
      obtain ⟨i1, i2⟩ := ih (midpointDrag m md s)
      exact ⟨i1.trans h1, i2.trans h2⟩

/-- Spec-side shape of a kilometer label: integer part, a decimal point,
exactly two decimal digits, and the `km` suffix. -/
def kmTwoDecimalText (k : ℤ) : String :=
  toString (k / 100) ++ "." ++
    String.mk [digitChar ((k % 100).toNat / 10), digitChar ((k % 100).toNat % 10)] ++ "km"

/-- Concrete fixtures used by witnesses and counterexamples.  The external
collaborators (`dist0`, `a20`) are arbitrary instantiations of the
distance/atan2 parameters: `dist0` returns 0 exactly on coincident points,
`a20` returns a nonzero angle (so a nonzero value reaching an overlay would
be visible). -/
def pA : LatLng := ⟨JsNum.num 0, JsNum.num 0⟩

def pB : LatLng := ⟨JsNum.num 0, JsNum.num 1⟩

def pC : LatLng := ⟨JsNum.num 1, JsNum.num 1⟩

def dist0 : LatLng → LatLng → JsNum := fun p q => if p = q then JsNum.num 0 else JsNum.num 100

def a20 : JsNum → JsNum → JsNum := fun _ _ => JsNum.num 7

/-- Claim C8 — For every edge, the distance label text is the geodesic edge
length in meters rounded to the nearest integer with suffix `m` when the
length is below 1000, and otherwise the length divided by 1000 rendered with
exactly 2 decimal places and suffix `km`. -/
theorem C8_distance_label_format (d : ℚ) :
    (d < 1000 → ∃ k : ℤ, |d - (k : ℚ)| ≤ 1 / 2 ∧
      distanceText (JsNum.num d) = toString k ++ "m") ∧
    (1000 ≤ d → ∃ k : ℤ, |d / 1000 * 100 - (k : ℚ)| ≤ 1 / 2 ∧
      distanceText (JsNum.num d) = kmTwoDecimalText k) := by
  constructor
  · intro hlt
    refine ⟨round d, abs_sub_round d, ?_⟩
    simp [distanceText, hlt]
  · intro hge
    refine ⟨⌊d / 1000 * 100 + 1 / 2⌋, ?_, ?_⟩
    · have h := abs_sub_round (d / 1000 * 100)
      rwa [round_eq] at h
    · rw [distanceText, if_neg (not_lt.mpr hge)]
      rfl

/-- Witness for C8 at 123 m (label `123m`) and 2345 m (label `2.35km`). -/
theorem C8_distance_label_format_witness :
    (∃ k : ℤ, |(123 : ℚ) - (k : ℚ)| ≤ 1 / 2 ∧
      distanceText (JsNum.num 123) = toString k ++ "m") ∧
    (∃ k : ℤ, |(2345 : ℚ) / 1000 * 100 - (k : ℚ)| ≤ 1 / 2 ∧
      distanceText (JsNum.num 2345) = kmTwoDecimalText k) :=
  ⟨(C8_distance_label_format 123).1 (by decide),
   (C8_distance_label_format 2345).2 (by decide)⟩

/-- Claim C9 — Every distance label is rendered horizontally: whatever the
`atan2` collaborator computes, the angle carried by every overlay pushed by
`updateEdgeMarkers` is `0` (the computed angle is overwritten), and the
overlay div's transform contains no `rotate` term. -/
theorem C9_labels_horizontal (dist : LatLng → LatLng → JsNum)
    (a2 : JsNum → JsNum → JsNum) (s : DrawingState) :
    (updateEdgeMarkers dist a2 s).edgeMarkers.all EdgeEntry.angleIsZero = true ∧
    ¬ ("rotate".toList <:+: distanceOverlayDivTransform.toList) := by
  constructor
  · rw [List.all_eq_true]
    intro x hx
    by_cases h : 2 ≤ s.vertices.length
    · rw [updateEdgeMarkers_edgeMarkers_of_le dist a2 s h, List.mem_flatMap] at hx
      obtain ⟨j, _, hj⟩ := hx
      rw [edgePairAt_eq] at hj
      simp only [List.mem_cons, List.not_mem_nil, or_false] at hj
      rcases hj with rfl | rfl <;> simp [EdgeEntry.angleIsZero]
    · rw [updateEdgeMarkers_edgeMarkers_of_lt dist a2 s (by omega)] at hx
      simp at hx
  · decide

/-- Claim C10 — For every edge, the anchor used for the handle marker and the
distance label is the planar midpoint: componentwise arithmetic mean of the
endpoints' latitudes and longitudes (no spherical correction). -/
theorem C10_midpoint_is_planar_mean (dist : LatLng → LatLng → JsNum)
    (a2 : JsNum → JsNum → JsNum) (s : DrawingState) (i : ℕ) (a b c d : ℚ)
    (h2 : 2 ≤ s.vertices.length) (hi : i < s.vertices.length) :
    (updateEdgeMarkers dist a2 s).edgeMarkers[2 * i]? =
      some (EdgeEntry.overlay (planarMidpoint (edgeP1 s.vertices i) (edgeP2 s.vertices i))
        (distanceText (dist (edgeP1 s.vertices i) (edgeP2 s.vertices i))) (JsNum.num 0)) ∧
    (updateEdgeMarkers dist a2 s).edgeMarkers[2 * i + 1]? =
      some (EdgeEntry.handle (planarMidpoint (edgeP1 s.vertices i) (edgeP2 s.vertices i))) ∧
    planarMidpoint ⟨JsNum.num a, JsNum.num b⟩ ⟨JsNum.num c, JsNum.num d⟩ =
      ⟨JsNum.num ((a + c) / 2), JsNum.num ((b + d) / 2)⟩ := by
  have hfun : edgePairAt dist a2 s.vertices = fun j =>
      [EdgeEntry.overlay (planarMidpoint (edgeP1 s.vertices j) (edgeP2 s.vertices j))
        (distanceText (dist (edgeP1 s.vertices j) (edgeP2 s.vertices j))) (JsNum.num 0),
       EdgeEntry.handle (planarMidpoint (edgeP1 s.vertices j) (edgeP2 s.vertices j))] :=
    funext fun j => edgePairAt_eq dist a2 s.vertices j
  refine ⟨?_, ?_, ?_⟩
  · rw [updateEdgeMarkers_edgeMarkers_of_le dist a2 s h2, hfun]
    exact (pair_flatMap_getElem _ _ _ i hi).1
  · rw [updateEdgeMarkers_edgeMarkers_of_le dist a2 s h2, hfun]
    exact (pair_flatMap_getElem _ _ _ i hi).2
  · have h2ne : (2 : ℚ) ≠ 0 := by norm_num
    simp [planarMidpoint, JsNum.add, JsNum.div, h2ne]

/-- Witness for C10 on a 2-vertex ring, edge 0, endpoints `(0,0)` and
`(0,1)`. -/
theorem C10_midpoint_is_planar_mean_witness :
    (updateEdgeMarkers dist0 a20
        { vertices := [pA, pB], vertexMarkers := [⟨pA⟩, ⟨pB⟩], edgeMarkers := [],
          tempPolyline := some [pA, pB], clickListener := true,
          dblClickListener := true }).edgeMarkers[2 * 0]? =
      some (EdgeEntry.overlay (planarMidpoint (edgeP1 [pA, pB] 0) (edgeP2 [pA, pB] 0))
        (distanceText (dist0 (edgeP1 [pA, pB] 0) (edgeP2 [pA, pB] 0))) (JsNum.num 0)) ∧
    (updateEdgeMarkers dist0 a20
        { vertices := [pA, pB], vertexMarkers := [⟨pA⟩, ⟨pB⟩], edgeMarkers := [],
          tempPolyline := some [pA, pB], clickListener := true,
          dblClickListener := true }).edgeMarkers[2 * 0 + 1]? =
      some (EdgeEntry.handle (planarMidpoint (edgeP1 [pA, pB] 0) (edgeP2 [pA, pB] 0))) ∧
    planarMidpoint ⟨JsNum.num 0, JsNum.num 0⟩ ⟨JsNum.num 0, JsNum.num 1⟩ =
      ⟨JsNum.num ((0 + 0) / 2), JsNum.num ((0 + 1) / 2)⟩ :=
  C10_midpoint_is_planar_mean dist0 a20
    { vertices := [pA, pB], vertexMarkers := [⟨pA⟩, ⟨pB⟩], edgeMarkers := [],
      tempPolyline := some [pA, pB], clickListener := true, dblClickListener := true }
    0 0 0 0 1 (by decide) (by decide)

lemma mapClick_inv (dist : LatLng → LatLng → JsNum) (a2 : JsNum → JsNum → JsNum)
    (s : DrawingState) (latLng? : Option LatLng) (hInv : MarkersInv s) :
    MarkersInv (mapClick dist a2 s latLng?) := by
  unfold mapClick
  split
  · exact hInv
  · split
    · apply updateEdgeMarkers_inv
      simp [hInv.1]
    · exact hInv

lemma completedMidDrag_inv (dist : LatLng → LatLng → JsNum)
    (a2 : JsNum → JsNum → JsNum) (i : ℕ) (pos p : LatLng)
    (moves : List (Option LatLng)) (s : DrawingState) (hInv : MarkersInv s) :
    MarkersInv (completedMidDrag dist a2 i pos moves p s) := by
  unfold completedMidDrag midpointDragStart midpointDragEnd
  apply updateEdgeMarkers_inv
  obtain ⟨hf1, hf2⟩ := foldl_midpointDrag_preserves
    ⟨pos, s.vertices, i + 1⟩ moves
    { s with vertices := spliceInsert s.vertices (i + 1) pos }
  simp only [List.length_set, spliceInsert_length, hf1, hf2]
  simp [hInv.1, spliceInsert_length]

lemma pathInsertAt_eq (ps : PolygonState) (index : ℕ) (q : LatLng)
    (hidx : index ≤ ps.path.length) :
    pathInsertAt ps index q =
      { ps with
        path := spliceInsert ps.path index q
        vertexMarkers := spliceInsert ps.vertexMarkers index ⟨q⟩ } := by
  simp only [pathInsertAt]
  rw [spliceInsert_getElem_self _ _ _ hidx]

lemma pathInsertAt_inv (ps : PolygonState) (index : ℕ) (q : LatLng)
    (hp : PolyInv ps) (hidx : index ≤ ps.path.length) :
    PolyInv (pathInsertAt ps index q) := by
  rw [pathInsertAt_eq ps index q hidx]
  exact ⟨by simp [spliceInsert_length, hp.1], hp.2⟩

/-- Claim C1, amended — After each structural change handled to completion
(surface-click append, edge-click insertion on a registered polygon, a
midpoint-handle drag completed by a drag-end carrying a point, any
edge-marker rebuild), `vertexMarkers.length = ring.length`.  The edge-marker
array of the drawing session, however, holds one overlay and one handle per
edge for all `n` cyclic edges whenever `n ≥ 2` — i.e. `2·n` entries (`n`
edges), including the closing edge even while the ring is still open — and
a registered polygon's rebuilt edge-marker array is empty (the rebuild is a
stub), not `n` as claimed. -/
theorem C1_marker_sync_amended (dist : LatLng → LatLng → JsNum)
    (a2 : JsNum → JsNum → JsNum) (s : DrawingState) (ps : PolygonState)
    (latLng? : Option LatLng) (i e : ℕ) (pos p q : LatLng)
    (moves : List (Option LatLng)) (ring : List LatLng)
    (hInv : MarkersInv s) (hp : PolyInv ps) (he : e < ps.path.length) :
    MarkersInv (mapClick dist a2 s latLng?) ∧
    MarkersInv (updateEdgeMarkers dist a2 s) ∧
    MarkersInv (completedMidDrag dist a2 i pos moves p s) ∧
    PolyInv (polygonClick ps (some e) none (some q)) ∧
    PolyInv (onPolygonComplete ring) := by
  refine ⟨mapClick_inv dist a2 s latLng? hInv,
          updateEdgeMarkers_inv dist a2 s hInv.1,
          completedMidDrag_inv dist a2 i pos p moves s hInv,
          ?_, ?_⟩
  · unfold polygonClick
    exact pathInsertAt_inv ps (e + 1) q hp (by omega)
  · exact ⟨by simp [onPolygonComplete, addEdgeMarkers], rfl⟩

/-- The session state after clicking `(0,0)` then `(0,1)` in a fresh drawing
session: an open 2-vertex ring. -/
def sTwo : DrawingState :=
  mapClick dist0 a20 (mapClick dist0 a20 startDrawingState (some pA)) (some pB)

/-- Counterexample to C1 as stated: with an open 2-vertex ring the claim
predicts `max 0 (2 - 1) = 1` edge markers, but the rebuild creates one
handle (and one overlay) for each of the 2 cyclic edges — 4 entries in the
`edgeMarkers` array, 2 of them handles. -/
theorem C1_marker_sync_counterexample :
    sTwo.vertices.length = 2 ∧
    sTwo.edgeMarkers.length = 4 ∧
    (sTwo.edgeMarkers.filter EdgeEntry.isHandle).length = 2 ∧
    ¬ ((sTwo.edgeMarkers.filter EdgeEntry.isHandle).length =
        max 0 (sTwo.vertices.length - 1)) ∧
    ¬ (sTwo.edgeMarkers.length = max 0 (sTwo.vertices.length - 1)) := by
  refine ⟨?_, ?_, ?_, ?_, ?_⟩ <;> decide

/-- Witness for the amended C1 on concrete states: the 2-vertex session
`sTwo` and a registered triangle. -/
theorem C1_marker_sync_amended_witness :
    MarkersInv (mapClick dist0 a20 sTwo (some pC)) ∧
    MarkersInv (updateEdgeMarkers dist0 a20 sTwo) ∧
    MarkersInv (completedMidDrag dist0 a20 0 pC [none] pC sTwo) ∧
    PolyInv (polygonClick (onPolygonComplete [pA, pB, pC]) (some 0) none (some pB)) ∧
    PolyInv (onPolygonComplete [pA, pB, pC]) :=
  C1_marker_sync_amended dist0 a20 sTwo (onPolygonComplete [pA, pB, pC])
    (some pC) 0 0 pC pC pB [none] [pA, pB, pC]
    ⟨by decide, by decide⟩ ⟨by decide, rfl⟩ (by decide)

lemma div_num_zero_cases (d : ℚ) :
    JsNum.div (JsNum.num d) (JsNum.num 0) = JsNum.nan ∨
    JsNum.div (JsNum.num d) (JsNum.num 0) = JsNum.posInf ∨
    JsNum.div (JsNum.num d) (JsNum.num 0) = JsNum.negInf := by
  simp only [JsNum.div]
  split_ifs <;> simp

lemma degenerate_coordinate (x r : JsNum)
    (hr : r = JsNum.nan ∨ r = JsNum.posInf ∨ r = JsNum.negInf) :
    JsNum.add x (JsNum.mul (JsNum.sub x x) r) = JsNum.nan := by
  rcases hr with rfl | rfl | rfl <;> cases x <;>
    simp [JsNum.sub, JsNum.mul, JsNum.add, sub_self]

lemma handleDistanceChange_degenerate (dist : LatLng → LatLng → JsNum)
    (a2 : JsNum → JsNum → JsNum) (p : LatLng) (i : ℕ) (newDistance : ℚ)
    (s : DrawingState) (hd : dist p p = JsNum.num 0) :
    handleDistanceChange dist a2 p p i newDistance s =
      updateEdgeMarkers dist a2
        { s with
          vertices :=
            s.vertices.set ((i + 1) % s.vertices.length) ⟨JsNum.nan, JsNum.nan⟩
          vertexMarkers :=
            s.vertexMarkers.set ((i + 1) % s.vertices.length) ⟨⟨JsNum.nan, JsNum.nan⟩⟩
          tempPolyline := s.tempPolyline.map fun _ =>
            closePath (s.vertices.set ((i + 1) % s.vertices.length)
              ⟨JsNum.nan, JsNum.nan⟩) } := by
  simp only [handleDistanceChange]
  rw [hd]
  rw [degenerate_coordinate p.lat _ (div_num_zero_cases newDistance),
      degenerate_coordinate p.lng _ (div_num_zero_cases newDistance)]

/-- Claim C2, amended — A distance-label edit on an edge whose endpoints
coincide (current distance 0) is NOT a no-op: the ratio divides by zero, the
far vertex slot `(i+1) % n` and its marker are overwritten with the invalid
position `(NaN, NaN)`, the polyline is refreshed and the edge markers
rebuilt.  The handler does return (no exception). -/
theorem C2_degenerate_edge_amended (dist : LatLng → LatLng → JsNum)
    (a2 : JsNum → JsNum → JsNum) (p : LatLng) (i : ℕ) (newDistance : ℚ)
    (s : DrawingState) (hd : dist p p = JsNum.num 0) :
    handleDistanceChange dist a2 p p i newDistance s =
      updateEdgeMarkers dist a2
        { s with
          vertices :=
            s.vertices.set ((i + 1) % s.vertices.length) ⟨JsNum.nan, JsNum.nan⟩
          vertexMarkers :=
            s.vertexMarkers.set ((i + 1) % s.vertices.length) ⟨⟨JsNum.nan, JsNum.nan⟩⟩
          tempPolyline := s.tempPolyline.map fun _ =>
            closePath (s.vertices.set ((i + 1) % s.vertices.length)
              ⟨JsNum.nan, JsNum.nan⟩) } :=
  handleDistanceChange_degenerate dist a2 p i newDistance s hd

/-- The session after clicking `(0,0)` twice: a 2-vertex ring whose single
drawn edge is degenerate (both endpoints the same point). -/
def sDegen : DrawingState :=
  mapClick dist0 a20 (mapClick dist0 a20 startDrawingState (some pA)) (some pA)

/-- Counterexample to C2 as stated: on the degenerate edge of `sDegen`,
submitting a desired length of 200 m mutates the ring (the far vertex
becomes `(NaN, NaN)`) and replaces its marker — not a no-op. -/
theorem C2_degenerate_edge_counterexample :
    dist0 pA pA = JsNum.num 0 ∧
    sDegen.vertices = [pA, pA] ∧
    (handleDistanceChange dist0 a20 pA pA 0 200 sDegen).vertices =
      [pA, ⟨JsNum.nan, JsNum.nan⟩] ∧
    (handleDistanceChange dist0 a20 pA pA 0 200 sDegen).vertices ≠ sDegen.vertices ∧
    (handleDistanceChange dist0 a20 pA pA 0 200 sDegen).vertexMarkers ≠
      sDegen.vertexMarkers := by
  have hstep := handleDistanceChange_degenerate dist0 a20 pA 0 200 sDegen rfl
  refine ⟨rfl, by decide, ?_, ?_, ?_⟩
  · rw [hstep, updateEdgeMarkers_vertices]; decide
  · rw [hstep, updateEdgeMarkers_vertices]; decide
  · rw [hstep, updateEdgeMarkers_vertexMarkers]; decide

/-- Witness for the amended C2 at the concrete degenerate session. -/
theorem C2_degenerate_edge_amended_witness :
    handleDistanceChange dist0 a20 pA pA 0 200 sDegen =
      updateEdgeMarkers dist0 a20
        { sDegen with
          vertices :=
            sDegen.vertices.set ((0 + 1) % sDegen.vertices.length) ⟨JsNum.nan, JsNum.nan⟩
          vertexMarkers :=
            sDegen.vertexMarkers.set ((0 + 1) % sDegen.vertices.length)
              ⟨⟨JsNum.nan, JsNum.nan⟩⟩
          tempPolyline := sDegen.tempPolyline.map fun _ =>
            closePath (sDegen.vertices.set ((0 + 1) % sDegen.vertices.length)
              ⟨JsNum.nan, JsNum.nan⟩) } :=
  C2_degenerate_edge_amended dist0 a20 pA 0 200 sDegen rfl

/-- A further concrete point with integer coordinates (used as click/drag
positions). -/
def pD : LatLng := ⟨JsNum.num 2, JsNum.num 7⟩

/-- The session after clicking `(0,0)`, `(0,1)`, `(1,1)`: an open 3-vertex
ring. -/
def sThree : DrawingState := mapClick dist0 a20 sTwo (some pC)

/-- Claim C3 — A surface double-click while drawing with at least 3 vertices
constructs a polygon from exactly the current vertices, registers it
(through `onPolygonComplete`), disposes the temporary polyline and all
temporary vertex/edge markers, and detaches both listeners; with fewer than
3 vertices it changes nothing (the session stays in Drawing). -/
theorem C3_double_click_close (app : AppState)
    (hl : app.session.dblClickListener = true) :
    (3 ≤ app.session.vertices.length →
      mapDblClick app =
        { session :=
            { app.session with
              tempPolyline := none
              vertexMarkers := []
              edgeMarkers := []
              clickListener := false
              dblClickListener := false }
          fieldPolygons := app.fieldPolygons ++ [onPolygonComplete app.session.vertices]
          isDrawingMode := false } ∧
      (onPolygonComplete app.session.vertices).path = app.session.vertices) ∧
    (app.session.vertices.length < 3 → mapDblClick app = app) := by
  constructor
  · intro h3
    refine ⟨?_, rfl⟩
    unfold mapDblClick
    rw [hl]
    simp [h3]
  · intro h3
    unfold mapDblClick
    rw [hl]
    simp [Nat.not_le.mpr h3]

/-- The app state holding the 3-vertex session, and one holding the 2-vertex
session. -/
def appThree : AppState :=
  { session := sThree, fieldPolygons := [], isDrawingMode := true }

def appTwo : AppState :=
  { session := sTwo, fieldPolygons := [], isDrawingMode := true }

/-- Witness for C3: closing the 3-vertex session registers the ring and
disposes the temporaries; double-click on the 2-vertex session is a no-op. -/
theorem C3_double_click_close_witness :
    (mapDblClick appThree =
      { session :=
          { appThree.session with
            tempPolyline := none
            vertexMarkers := []
            edgeMarkers := []
            clickListener := false
            dblClickListener := false }
        fieldPolygons := appThree.fieldPolygons ++ [onPolygonComplete appThree.session.vertices]
        isDrawingMode := false } ∧
      (onPolygonComplete appThree.session.vertices).path = appThree.session.vertices) ∧
    mapDblClick appTwo = appTwo :=
  ⟨(C3_double_click_close appThree (by decide)).1 (by decide),
   (C3_double_click_close appTwo (by decide)).2 (by decide)⟩

/-- Claim C5 — A click on a registered polygon's boundary that hits edge `e`
but no vertex, carrying point `p`, inserts `p` into the ring at index
`e + 1` (ring length grows by one), and a vertex marker for the new vertex
is spliced in at the same index. -/
theorem C5_edge_click_insert (ps : PolygonState) (e : ℕ) (p : LatLng)
    (he : e < ps.path.length) (hsync : ps.vertexMarkers.length = ps.path.length) :
    (polygonClick ps (some e) none (some p)).path =
      ps.path.take (e + 1) ++ p :: ps.path.drop (e + 1) ∧
    (polygonClick ps (some e) none (some p)).path.length = ps.path.length + 1 ∧
    (polygonClick ps (some e) none (some p)).path[e + 1]? = some p ∧
    (polygonClick ps (some e) none (some p)).vertexMarkers[e + 1]? = some ⟨p⟩ ∧
    (polygonClick ps (some e) none (some p)).vertexMarkers.length =
      ps.vertexMarkers.length + 1 := by
  have he1 : e + 1 ≤ ps.path.length := he
  have hm1 : e + 1 ≤ ps.vertexMarkers.length := by omega
  have hclick : polygonClick ps (some e) none (some p) = pathInsertAt ps (e + 1) p := rfl
  rw [hclick, pathInsertAt_eq ps (e + 1) p he1]
  exact ⟨rfl, by simp [spliceInsert_length],
         spliceInsert_getElem_self _ _ _ he1,
         spliceInsert_getElem_self _ _ _ hm1,
         by simp [spliceInsert_length]⟩

/-- The registered triangle used in scenarios. -/
def psTri : PolygonState := onPolygonComplete [pA, pB, pC]

/-- Witness for C5 (Scenario 3): after an edge-0 click on the registered
triangle, the ring has length 4, the clicked point sits at index 1, and its
vertex marker exists. -/
theorem C5_edge_click_insert_witness :
    (polygonClick psTri (some 0) none (some pD)).path =
      psTri.path.take (0 + 1) ++ pD :: psTri.path.drop (0 + 1) ∧
    (polygonClick psTri (some 0) none (some pD)).path.length = psTri.path.length + 1 ∧
    (polygonClick psTri (some 0) none (some pD)).path[0 + 1]? = some pD ∧
    (polygonClick psTri (some 0) none (some pD)).vertexMarkers[0 + 1]? = some ⟨pD⟩ ∧
    (polygonClick psTri (some 0) none (some pD)).vertexMarkers.length =
      psTri.vertexMarkers.length + 1 :=
  C5_edge_click_insert psTri 0 pD (by decide) (by decide)

/-- Claim C6 — The code evaluated at the failing input: on the 3-vertex
session, a midpoint-handle drag on edge 0 splices a provisional vertex in at
index 1 on `dragstart`; when `dragend` fires without a geo-point the
listener returns immediately, so the provisional vertex is NOT discarded —
the ring keeps 4 vertices (≠ its pre-drag contents, which the handler had
even stored) while only 3 vertex markers exist. -/
theorem C6_abnormal_dragend_keeps_vertex :
    sThree.vertices.length = 3 ∧
    (midpointDragStart 0 pD sThree).1.vertices.length = 4 ∧
    (midpointDragStart 0 pD sThree).2.originalVertices = sThree.vertices ∧
    midpointDragEnd dist0 a20 none (midpointDragStart 0 pD sThree).2
        (midpointDragStart 0 pD sThree).1 =
      (midpointDragStart 0 pD sThree).1 ∧
    (midpointDragEnd dist0 a20 none (midpointDragStart 0 pD sThree).2
        (midpointDragStart 0 pD sThree).1).vertices ≠ sThree.vertices ∧
    (midpointDragEnd dist0 a20 none (midpointDragStart 0 pD sThree).2
        (midpointDragStart 0 pD sThree).1).vertexMarkers.length = 3 := by
  refine ⟨by decide, by decide, by decide, rfl, by decide, by decide⟩


lemma applyHostEvent_register (carea : List LatLng → ℚ) (st : RegistryState)
    (ring : List LatLng) :
    applyHostEvent carea st (.register ring) =
      areaEffect carea { st with fieldPolygons := st.fieldPolygons ++ [ring] } := rfl

lemma applyHostEvent_mutate (carea : List LatLng → ℚ) (st : RegistryState)
    (si vi : ℕ) (p : LatLng) :
    applyHostEvent carea st (.mutateVertex si vi p) =
      { st with
        fieldPolygons :=
          st.fieldPolygons.set si ((st.fieldPolygons.getD si []).set vi p) } := rfl

/-- Claim C7, amended — The value reported to the host on each registration
equals the sum over all registered rings of `computeArea(ring) / 10000`
(hectares; two rings of 10000 m² each give 2.0), and the host is notified on
every shape registration — but a vertex mutation of a registered ring does
NOT notify the host: the mutation happens in place on the polygon's path, so
the `useEffect` watching the `fieldPolygons` array never re-runs. -/
theorem C7_area_notification_amended (carea : List LatLng → ℚ) (st : RegistryState)
    (ring r1 r2 : List LatLng) (si vi : ℕ) (p : LatLng)
    (h1 : carea r1 = 10000) (h2 : carea r2 = 10000) :
    (applyHostEvent carea st (.register ring)).fieldPolygons =
      st.fieldPolygons ++ [ring] ∧
    (applyHostEvent carea st (.register ring)).notified =
      st.notified ++ [totalAreaHectares carea (st.fieldPolygons ++ [ring])] ∧
    (applyHostEvent carea st (.mutateVertex si vi p)).notified = st.notified ∧
    totalAreaHectares carea [r1, r2] = 2 := by
  refine ⟨?_, ?_, ?_, ?_⟩
  · rw [applyHostEvent_register]
    unfold areaEffect
    split <;> rfl
  · rw [applyHostEvent_register]
    unfold areaEffect
    rw [if_pos (by simp)]
  · rw [applyHostEvent_mutate]
  · unfold totalAreaHectares
    norm_num [h1, h2]

/-- The registered triangle ring and a shape-sensitive concrete area
collaborator: 10000 m² for the triangle as drawn, 20000 m² for anything
else (so a vertex mutation changes the total). -/
def triRing : List LatLng := [pA, pB, pC]

def careaCx : List LatLng → ℚ := fun r => if r = triRing then 10000 else 20000

def regStart : RegistryState := { fieldPolygons := [], notified := [] }

/-- Counterexample to C7 as stated: registering the triangle notifies the
host once (total 1 ha); mutating vertex 0 of the registered ring changes the
total to 2 ha, yet no new notification is produced. -/
theorem C7_area_notification_counterexample :
    (applyHostEvent careaCx regStart (.register triRing)).notified = [1] ∧
    (applyHostEvent careaCx (applyHostEvent careaCx regStart (.register triRing))
        (.mutateVertex 0 0 pD)).notified = [1] ∧
    totalAreaHectares careaCx
        (applyHostEvent careaCx (applyHostEvent careaCx regStart (.register triRing))
          (.mutateVertex 0 0 pD)).fieldPolygons = 2 := by
  have e1 : applyHostEvent careaCx regStart (.register triRing) =
      { fieldPolygons := [triRing],
        notified := [totalAreaHectares careaCx [triRing]] } := rfl
  have htot1 : totalAreaHectares careaCx [triRing] = 1 := by
    norm_num [totalAreaHectares, careaCx]
  have e2 : applyHostEvent careaCx (applyHostEvent careaCx regStart (.register triRing))
        (.mutateVertex 0 0 pD) =
      { fieldPolygons := [[pD, pB, pC]],
        notified := [totalAreaHectares careaCx [triRing]] } := by
    rw [e1]; rfl
  have hother : careaCx [pD, pB, pC] = 20000 := by
    have hne : ¬ ([pD, pB, pC] = triRing) := by decide
    simp [careaCx, hne]
  refine ⟨?_, ?_, ?_⟩
  · rw [e1, htot1]
  · rw [e2, htot1]
  · rw [e2]
    norm_num [totalAreaHectares, hother]

/-- A constant concrete area collaborator: every ring measures 10000 m². -/
def careaTen : List LatLng → ℚ := fun _ => 10000

/-- Witness for the amended C7 on concrete data (Scenario 5 included: two
10000 m² rings total 2.0 ha). -/
theorem C7_area_notification_amended_witness :
    (applyHostEvent careaTen regStart (.register triRing)).fieldPolygons =
      regStart.fieldPolygons ++ [triRing] ∧
    (applyHostEvent careaTen regStart (.register triRing)).notified =
      regStart.notified ++
        [totalAreaHectares careaTen (regStart.fieldPolygons ++ [triRing])] ∧
    (applyHostEvent careaTen regStart (.mutateVertex 0 0 pD)).notified =
      regStart.notified ∧
    totalAreaHectares careaTen [triRing, [pD, pB, pC]] = 2 :=
  C7_area_notification_amended careaTen regStart triRing triRing [pD, pB, pC]
    0 0 pD rfl rfl
